import Mathlib

/-!
Verification development for the lingQAPIScript repository.

The Python sources are shallowly embedded as Lean definitions:

* string-processing helpers (`clean_text`, `score_node_text`, `slugify`,
  word counting) are translated character-by-character from the regular
  expressions in `lingq_daily_import.py`, restricted to the ASCII reading
  of the Python character classes;
* the parsed HTML document is a tree (`Node`); parsing itself (BeautifulSoup
  and the html parser) is an external collaborator, so every function that
  receives HTML in the source receives a parsed tree here;
* network transports (requests, Playwright) and JSON parsing are external
  collaborators modelled as explicit function parameters, and the headless
  pipeline is a pure function that additionally returns the ordered trace of
  its side effects (HTTP requests, artifact writes, upload posts).

Python truthiness on optional strings and integers (the pervasive
`x = cfg.get(k) or default` idiom) is modelled by `pyStrOpt` / the explicit
zero test on integers.
-/

/-! ## Character classes and basic string helpers -/

/-- Python whitespace characters as used by `str.strip()` (ASCII subset). -/
def isPyWs (c : Char) : Bool :=
  c = ' ' || c = '\t' || c = '\n' || c = '\r' || c = '\x0b' || c = '\x0c'

/-- Word character of the regex class used in the sources (`[A-Za-z0-9_]`,
the ASCII reading of the Python word class). -/
def isWordChar (c : Char) : Bool := c.isAlphanum || c = '_'

/-- Removes a trailing run of characters satisfying `p` from a list. -/
def dropTrailing (p : Char → Bool) : List Char → List Char
  | [] => []
  | c :: rest =>
      match dropTrailing p rest with
      | [] => if p c then [] else [c]
      | d :: ds => c :: d :: ds

/-- Python `str.strip()` on a character list: drop leading and trailing
whitespace. -/
def pyStripL (cs : List Char) : List Char :=
  dropTrailing isPyWs (cs.dropWhile isPyWs)

/-- Python `str.strip()` on strings. -/
def pyStrip (s : String) : String := String.mk (pyStripL s.data)

/-- Counts the maximal runs of characters satisfying `p`; the flag records
whether the previous character was inside a run. -/
def countTokensAux (p : Char → Bool) (inTok : Bool) : List Char → Nat
  | [] => 0
  | c :: rest =>
      if p c then (if inTok then 0 else 1) + countTokensAux p true rest
      else countTokensAux p false rest

/-- Number of matches of the regex `\w+`: `len(re.findall(r"\w+", s))`,
the word count used by `score_node_text` and by both word-count gates. -/
def wordCount (s : String) : Nat := countTokensAux isWordChar false s.data

/-- Number of occurrences of a character in a string (`str.count`). -/
def charCount (c : Char) (s : String) : Nat := s.data.count c

/-! ## clean_text (lingq_daily_import.py lines 45-49) -/

/-- Replaces each maximal run of spaces and tabs by a single space
(`re.sub(r"[ \t]+", " ", text)`); the flag records whether the previous
character belonged to such a run. -/
def collapseSpacesAux (prevSp : Bool) : List Char → List Char
  | [] => []
  | c :: rest =>
      if c = ' ' || c = '\t' then
        (if prevSp then [] else [' ']) ++ collapseSpacesAux true rest
      else c :: collapseSpacesAux false rest

/-- Caps every maximal run of newlines at two (`re.sub(r"\n{3,}", "\n\n", text)`);
`run` is the number of newlines already emitted-or-skipped in the current run. -/
def capNewlinesAux (run : Nat) : List Char → List Char
  | [] => []
  | c :: rest =>
      if c = '\n' then
        (if run < 2 then ['\n'] else []) ++ capNewlinesAux (run + 1) rest
      else c :: capNewlinesAux 0 rest

/-- `clean_text` from lingq_daily_import.py: remove carriage returns, collapse
runs of horizontal whitespace to one space, collapse three or more consecutive
newlines to exactly two, and strip the ends. -/
def clean_text (raw : String) : String :=
  let cs := raw.data.filter (fun c => c ≠ '\r')
  let cs := collapseSpacesAux false cs
  let cs := capNewlinesAux 0 cs
  String.mk (pyStripL cs)

/-- `score_node_text` from lingq_daily_import.py: word count plus four times
the paragraph count, where paragraphs are one more than the newline count. -/
def score_node_text (text : String) : Nat :=
  let paragraphs := charCount '\n' text + 1
  wordCount text + paragraphs * 4

/-! ## slugify (lingq_daily_import.py lines 33-36) -/

/-- Lowercase ASCII letter or digit: the class kept by the substitution
`re.sub(r"[^a-z0-9]+", "-", value)`. -/
def isSlugAlnum (c : Char) : Bool :=
  ('a' ≤ c && c ≤ 'z') || ('0' ≤ c && c ≤ '9')

/-- Merges adjacent hyphens, so a run of hyphens becomes a single hyphen. -/
def hyphenCollapse : List Char → List Char
  | [] => []
  | c :: rest =>
      match hyphenCollapse rest with
      | [] => [c]
      | d :: ds => if c = '-' && d = '-' then d :: ds else c :: d :: ds

/-- The substitution `re.sub(r"[^a-z0-9]+", "-", value)`: every maximal run of
characters outside `[a-z0-9]` becomes one hyphen. -/
def subNonAlnum (cs : List Char) : List Char :=
  hyphenCollapse (cs.map (fun c => if isSlugAlnum c then c else '-'))

/-- `slugify` from lingq_daily_import.py: lowercase, strip, replace runs of
non-alphanumerics by hyphens, strip hyphens, defaulting to "lesson". -/
def slugify (value : String) : String :=
  let v := pyStripL (value.data.map Char.toLower)
  let subbed := subNonAlnum v
  let stripped := dropTrailing (fun c => c = '-') (subbed.dropWhile (fun c => c = '-'))
  if stripped.isEmpty then "lesson" else String.mk stripped

/-! ## The parsed HTML document

BeautifulSoup and the html parser are external collaborators: the embedding
works on the parse tree they produce.  A document is the soup object, an
element node (conventionally tagged "[document]") whose children are the
parsed top-level nodes; `NodeList` is a mutual list type so that all tree
functions are structurally recursive. -/

mutual
inductive Node where
  | text : String → Node
  | elem : String → NodeList → Node
inductive NodeList where
  | nil : NodeList
  | cons : Node → NodeList → NodeList
end

/-- The tags decomposed by `extract_content` before any text is read
(lingq_daily_import.py line 61). -/
def badTags : List String := ["script", "style", "noscript", "header", "footer", "nav", "aside"]

mutual
/-- Removes every descendant element with a tag in `badTags`, keeping the node
itself: the `tag.decompose()` loop of `extract_content`. -/
def stripN : Node → Node
  | .text s => .text s
  | .elem t cs => .elem t (stripNL cs)
def stripNL : NodeList → NodeList
  | .nil => .nil
  | .cons (Node.text s) rest => .cons (.text s) (stripNL rest)
  | .cons (Node.elem t cs) rest =>
      if t ∈ badTags then stripNL rest else .cons (.elem t (stripNL cs)) (stripNL rest)
end

mutual
/-- All descendant strings of a node in document order: the `strings`
generator that `get_text` joins. -/
def stringsN : Node → List String
  | .text s => [s]
  | .elem _ cs => stringsNL cs
def stringsNL : NodeList → List String
  | .nil => []
  | .cons n rest => stringsN n ++ stringsNL rest
end

/-- `node.get_text("\n")`: all descendant strings joined by newlines; block
and inline boundaries become newlines. -/
def getTextN (n : Node) : String := String.intercalate "\n" (stringsN n)

mutual
/-- First descendant element with the given tag, in document order (the
behaviour of `soup.title` and `soup.body` attribute lookup). -/
def findFirstN (tag : String) : Node → Option Node
  | .text _ => none
  | .elem t cs => if t = tag then some (.elem t cs) else findFirstNL tag cs
def findFirstNL (tag : String) : NodeList → Option Node
  | .nil => none
  | .cons n rest =>
      match findFirstN tag n with
      | some r => some r
      | none => findFirstNL tag rest
end

/-- `soup.find(tag)` searching the children of the document node. -/
def findTagDoc (tag : String) : Node → Option Node
  | .text _ => none
  | .elem _ cs => findFirstNL tag cs

/-- A CSS selector at the model boundary: the external CSS engine decides,
from an element tag and its children, whether the element matches.  A
syntactically invalid selector is one that matches nothing. -/
abbrev Sel := String → NodeList → Bool

/-- The plain tag selector used by the heuristic path
(`soup.select("article")` and friends). -/
def tagSel (t : String) : Sel := fun tag _ => tag = t

mutual
/-- All elements matched by a selector, in document order (preorder), as
returned by `soup.select`. -/
def selectN (sel : Sel) : Node → List Node
  | .text _ => []
  | .elem t cs => (if sel t cs then [Node.elem t cs] else []) ++ selectNL sel cs
def selectNL (sel : Sel) : NodeList → List Node
  | .nil => []
  | .cons n rest => selectN sel n ++ selectNL sel rest
end

/-- `soup.select(sel)`: matches among the descendants of the document node
(the soup object itself is never returned). -/
def selectDoc (sel : Sel) : Node → List Node
  | .text _ => []
  | .elem _ cs => selectNL sel cs

/-- `.string` of a tag: the single string reached through a chain of
single-child tags, if any (bs4 `Tag.string`). -/
def nodeStringN : Node → Option String
  | .text s => some s
  | .elem _ (.cons c .nil) => nodeStringN c
  | .elem _ .nil => none
  | .elem _ (.cons _ (.cons _ _)) => none

/-- Python truthiness of a bs4 node: a tag is falsy when it has no children
(`Tag.__len__`), a string is falsy when empty. -/
def pyTruthy : Node → Bool
  | .text s => s ≠ ""
  | .elem _ .nil => false
  | .elem _ (.cons _ _) => true

/-! ## extract_content (lingq_daily_import.py lines 58-81, selectors variant) -/

/-- The result of extraction (`ExtractionResult` dataclass). -/
structure ExtractionResult where
  title : String
  text : String
deriving DecidableEq, Repr

/-- Title resolution of `extract_content` (lines 64-66): the stripped
`.string` of the first title element when that is present and non-empty,
otherwise the fallback title. -/
def resolveTitle (d : Node) (fallback_title : String) : String :=
  match findTagDoc "title" d with
  | some tEl =>
      if pyTruthy tEl then
        match nodeStringN tEl with
        | some s => if s ≠ "" then pyStrip s else fallback_title
        | none => fallback_title
      else fallback_title
  | none => fallback_title

/-- First element of the list whose key is maximal, as selected by the Python
`max(candidates, key=...)` call (the first of several equal maxima wins). -/
def firstMaxBy {α : Type} (f : α → Nat) : List α → Option α
  | [] => none
  | a :: rest =>
      match firstMaxBy f rest with
      | none => some a
      | some b => if f a < f b then some b else some a

/-- The candidate texts of the heuristic path (lines 68-73): cleaned text of
every article, main and section element, in that tag order and document order
within a tag, keeping only texts longer than 400 characters. -/
def heuristicCandidates (d : Node) : List String :=
  (List.flatMap ["article", "main", "section"]
      (fun t => (selectDoc (tagSel t) d).map (fun n => clean_text (getTextN n)))).filter
    (fun text => 400 < text.length)

/-- `soup.body or soup` (line 76): the first body element when truthy, else
the document itself. -/
def bodyOrSoup (d : Node) : Node :=
  match findTagDoc "body" d with
  | some b => if pyTruthy b then b else d
  | none => d

/-- The heuristic path of `extract_content` (lines 68-81), parameterised by
the scoring function so that independence from scoring is expressible. -/
def heuristicExtract (score : String → Nat) (d : Node) (title : String) : ExtractionResult :=
  match firstMaxBy score (heuristicCandidates d) with
  | some best => { title := title, text := best }
  | none => { title := title, text := clean_text (getTextN (bodyOrSoup d)) }

/-- Modelled from the spec: the selector path of the canonical
`extract_content(html, fallback_title, selectors)`; that variant of
lingq_daily_import.py is not among the sources, only its caller
(lingq_interactive.py line 618) and the spec section 4.2 describe it.  For
each selector in order, the cleaned text of every matched element in document
order, joined with paragraph breaks; a selector matching nothing contributes
nothing. -/
def selectorText (d : Node) (sels : List Sel) : String :=
  String.intercalate "\n\n"
    (List.flatMap sels (fun sel => (selectDoc sel d).map (fun n => clean_text (getTextN n))))

/-- The body of `extract_content` with the scoring function a parameter:
decompose the non-content tags, resolve the title, then either the
spec-modelled selector path (selectors present and non-empty) or the scored
heuristic path from the source. -/
def extractCore (score : String → Nat) (doc : Node) (fallback_title : String)
    (selectors : Option (List Sel)) : ExtractionResult :=
  let d := stripN doc
  let title := resolveTitle d fallback_title
  match selectors with
  | some sels =>
      if sels.isEmpty then heuristicExtract score d title
      else { title := title, text := selectorText d sels }
  | none => heuristicExtract score d title

/-- `extract_content`: the extraction entry point, scored by
`score_node_text`. -/
def extract_content (doc : Node) (fallback_title : String)
    (selectors : Option (List Sel)) : ExtractionResult :=
  extractCore score_node_text doc fallback_title selectors

/-! ## Python option truthiness -/

/-- The `x or y` idiom on optional strings: an empty string counts as absent. -/
def pyStrOpt (o : Option String) : Option String :=
  match o with
  | some s => if s = "" then none else some s
  | none => none

/-! ## Page Fetcher (lingq_daily_import.py lines 24 and 39-42, spec section 4.1) -/

/-- Transport-level failure of the external HTTP client. -/
structure NetError where
  msg : String
deriving DecidableEq, Repr

/-- An HTTP response at the model boundary; the body is already parsed when a
document is fetched. -/
structure HttpResponse (α : Type) where
  status : Nat
  body : α

/-- An outgoing HTTP request as the sources build it. -/
structure HttpRequest where
  method : String
  url : String
  headers : List (String × String)
deriving DecidableEq, Repr

/-- The fixed identifying user agent of lingq_daily_import.py line 24. -/
def USER_AGENT : String := "Mozilla/5.0 (compatible; LingQDailyImporter/1.0; +https://lingq.com/)"

/-- Modelled from the spec: the GET request of the canonical
`fetch_html(url, accept_language)`; the sources hold only the variant without
the language parameter (lingq_daily_import.py lines 39-42) and its caller
(lingq_interactive.py line 617).  A single GET with the fixed user agent and,
when a language is provided, that value as the Accept-Language header. -/
def mkGetRequest (url : String) (accept_language : Option String) : HttpRequest :=
  { method := "GET", url := url,
    headers := [("User-Agent", USER_AGENT)] ++
      (match accept_language with
       | some v => [("Accept-Language", v)]
       | none => []) }

/-- Failure of a fetch: transport error or error status. -/
inductive FetchError where
  | network (e : NetError)
  | httpStatus (status : Nat)
deriving DecidableEq, Repr

/-- The statuses on which `response.raise_for_status()` raises (4xx and 5xx). -/
def isErrorStatus (status : Nat) : Bool := 400 ≤ status && status < 600

/-- Modelled from the spec: the canonical `fetch_html` with the optional
language-negotiation header; shaped exactly like the sourced variant
(build the request, one call to the transport, `raise_for_status`, return the
body).  The transport is the external HTTP client; it delivers final
responses only (informational 1xx responses are consumed internally by the
client). -/
def fetch_html {H : Type} (transport : HttpRequest → Except NetError (HttpResponse H))
    (url : String) (accept_language : Option String) : Except FetchError H :=
  match transport (mkGetRequest url accept_language) with
  | .error e => .error (.network e)
  | .ok resp =>
      if isErrorStatus resp.status then .error (.httpStatus resp.status)
      else .ok resp.body

/-! ## Pre-navigation steps (lingq_interactive.py lines 386-414 and 417-451) -/

/-- One pre-navigation step, a loosely-typed dict in the source. -/
structure PreStep where
  action : Option String := none
  url : Option String := none
  selector : Option String := none
  value : Option String := none
  ms : Option Int := none
deriving DecidableEq, Repr

/-- Failure raised by a Playwright page action (for example a selector that
matches nothing). -/
structure StepError where
  msg : String
deriving DecidableEq, Repr

/-- The browser automation collaborator: the page actions `_run_pre_step`
dispatches to, each able to fail. -/
structure Browser (σ : Type) where
  goto : σ → String → Except StepError σ
  fill : σ → String → String → Except StepError σ
  selectOption : σ → String → String → Except StepError σ
  click : σ → String → Except StepError σ
  waitForLoad : σ → Except StepError σ
  waitTimeout : σ → Int → Except StepError σ

/-- The warning printed for an unknown pre-step action (line 414). -/
def unknownActionWarning (action : String) : String :=
  "  WARNING: unknown pre-step action " ++ action ++ " — skipped."

/-- `_run_pre_step` (lines 386-414): dispatch one step on the page; an unknown
action only emits a warning.  The wait default of 500 ms also applies to a
falsy (zero) ms value, as in `int(step.get("ms") or 500)`. -/
def run_pre_step {σ : Type} (B : Browser σ) (page : σ) (step : PreStep) :
    Except StepError (σ × List String) :=
  let action := pyStrip (step.action.getD "")
  if action = "goto" then
    let target := pyStrip (step.url.getD "")
    if target = "" then .ok (page, [])
    else
      match B.goto page target with
      | .ok p => .ok (p, [])
      | .error e => .error e
  else if action = "fill" then
    (B.fill page (step.selector.getD "") (step.value.getD "")).map (fun p => (p, []))
  else if action = "select" then
    (B.selectOption page (step.selector.getD "") (step.value.getD "")).map (fun p => (p, []))
  else if action = "click" then
    (B.click page (step.selector.getD "")).map (fun p => (p, []))
  else if action = "wait_for_load" then
    (B.waitForLoad page).map (fun p => (p, []))
  else if action = "wait" then
    let ms : Int := match step.ms with | some m => if m = 0 then 500 else m | none => 500
    (B.waitTimeout page ms).map (fun p => (p, []))
  else .ok (page, [unknownActionWarning action])

/-- The step loop of `_fetch_html_with_playwright` (lines 443-445): run the
steps in order, collecting warnings, stopping at the first failure. -/
def run_pre_steps {σ : Type} (B : Browser σ) (page : σ) :
    List PreStep → Except StepError (σ × List String)
  | [] => .ok (page, [])
  | step :: rest =>
      match run_pre_step B page step with
      | .error e => .error e
      | .ok (p, ws) =>
          match run_pre_steps B p rest with
          | .error e => .error e
          | .ok (p2, ws2) => .ok (p2, ws ++ ws2)

/-- The Playwright collaborator: a fresh page in a context with the given
locale, and the rendered DOM of a page. -/
structure PwEnv (σ : Type) where
  browser : Browser σ
  newPage : Option String → σ
  content : σ → Node

/-- `_fetch_html_with_playwright` (lines 417-451): open a page whose context
locale is the browser language, run the pre steps, navigate to the url and
capture the rendered DOM. -/
def fetch_html_with_playwright {σ : Type} (pw : PwEnv σ) (preSteps : List PreStep)
    (locale : Option String) (url : String) : Except StepError (Node × List String) :=
  let page := pw.newPage locale
  match run_pre_steps pw.browser page preSteps with
  | .error e => .error e
  | .ok (p, ws) =>
      match pw.browser.goto p url with
      | .error e => .error e
      | .ok p2 => .ok (pw.content p2, ws)

/-! ## Config (spec section 3, lingq_interactive.py lines 590-611) -/

/-- The persisted per-site configuration dict, optional fields absent or
falsy exactly as the source reads them. -/
structure Config where
  url : Option String := none
  selectors : Option (List Sel) := none
  api_key : Option String := none
  language : Option String := none
  browser_language : Option String := none
  accept_language : Option String := none
  source_lang : Option String := none
  title : Option String := none
  collection_id : Option Int := none
  pre_steps : List PreStep := []

/-- Modelled from the spec: `with_query_param`, absent from the sources (only
called at lingq_interactive.py line 607); appends the key-value pair as a
query parameter to the url. -/
def with_query_param (url key value : String) : String :=
  if url.contains '?' then url ++ "&" ++ key ++ "=" ++ value
  else url ++ "?" ++ key ++ "=" ++ value

/-! ## derive_default_title (lingq_daily_import.py lines 114-122) -/

/-- Characters before the query or fragment part. -/
def takeUntilQuery (cs : List Char) : List Char :=
  cs.takeWhile (fun c => c ≠ '?' && c ≠ '#')

/-- urlparse at the model boundary, for absolute http(s) urls: the network
location and the path. -/
def netlocAndPath (url : String) : String × String :=
  match url.splitOn "://" with
  | [] => ("", String.mk (takeUntilQuery url.data))
  | [_] => ("", String.mk (takeUntilQuery url.data))
  | _ :: rest =>
      let after := String.intercalate "://" rest
      let netloc := after.data.takeWhile (fun c => c ≠ '/' && c ≠ '?' && c ≠ '#')
      let rest2 := after.data.dropWhile (fun c => c ≠ '/' && c ≠ '?' && c ≠ '#')
      (String.mk netloc, String.mk (takeUntilQuery rest2))

/-- Python `str.title()` on ASCII letters: uppercase a letter that follows a
non-letter, lowercase a letter that follows a letter. -/
def pyTitleAux (prevAlpha : Bool) : List Char → List Char
  | [] => []
  | c :: rest =>
      if c.isAlpha then (if prevAlpha then c.toLower else c.toUpper) :: pyTitleAux true rest
      else c :: pyTitleAux false rest

/-- Python `str.title()`. -/
def pyTitle (s : String) : String := String.mk (pyTitleAux false s.data)

/-- `derive_default_title`: title-cased last path segment with host and date,
or a generic daily-reading title.  The current date is a parameter (the
source reads the clock). -/
def derive_default_title (url : String) (dateDash : String) : String :=
  let np := netlocAndPath url
  let host := np.1.replace "www." ""
  let pstripped := dropTrailing (fun c => c = '/') (np.2.data.dropWhile (fun c => c = '/'))
  let lastSeg := (((String.mk pstripped).splitOn "/").getLast?).getD ""
  let path_part := pyStrip ((lastSeg.replace "-" " ").replace "_" " ")
  if path_part ≠ "" then pyTitle path_part ++ " (" ++ host ++ ") " ++ dateDash
  else "Daily Reading (" ++ host ++ ") " ++ dateDash

/-! ## Payload and upload (lingq_daily_import.py lines 84-111,
lingq_audio_import.py lines 100-130) -/

/-- The upload payload dict of `build_lingq_payload`. -/
structure Payload where
  title : String
  text : String
  share_status : String
  collection : Option Int
deriving DecidableEq, Repr

/-- `build_lingq_payload` (lines 84-92). -/
def build_lingq_payload (title text : String) (collection : Option Int) : Payload :=
  { title := title, text := text, share_status := "private", collection := collection }

/-- `lingq_import_url` (lines 95-96), also the formatted lessons url of
lingq_audio_import.py line 58. -/
def lingq_import_url (language : String) : String :=
  "https://www.lingq.com/api/v3/" ++ language ++ "/lessons/"

/-- A JSON value, as returned by the external `response.json()` parser. -/
inductive Json where
  | null : Json
  | bool : Bool → Json
  | num : Int → Json
  | str : String → Json
  | arr : List Json → Json
  | obj : List (String × Json) → Json

/-- The literal success dict returned for a blank body. -/
def jsonOkTrue : Json := Json.obj [("ok", Json.bool true)]

/-- Failure of the external JSON parser. -/
structure ParseError where
  msg : String
deriving DecidableEq, Repr

/-- Failure of an upload call: transport error, error status
(requests.HTTPError, carrying the response body), or a body that failed to
parse as JSON. -/
inductive UploadError where
  | network (e : NetError)
  | http (status : Nat) (body : String)
  | parse (e : ParseError)

/-- The POST request either uploader builds: JSON body for the lesson
importer, multipart form fields with an audio file part for the audio
importer. -/
structure UploadRequest where
  url : String
  authorization : String
  contentType : Option String
  jsonBody : Option Payload
  formFields : List (String × String)
  audioFile : Option String
deriving DecidableEq, Repr

/-- The request of `upload_to_lingq` (lines 99-109): JSON-serialised payload
to the lessons endpoint with a token authorization header. -/
def mkLessonPostRequest (payload : Payload) (language api_key : String) : UploadRequest :=
  { url := lingq_import_url language,
    authorization := "Token " ++ api_key,
    contentType := some "application/json",
    jsonBody := some payload,
    formFields := [],
    audioFile := none }

/-- Shared response handling of both uploaders (lingq_daily_import.py line
110-111, lingq_audio_import.py lines 129-130): `raise_for_status`, then parse
the body as JSON unless it is blank, in which case return the ok dict. -/
def handleUploadResponse (parse : String → Except ParseError Json)
    (resp : HttpResponse String) : Except UploadError Json :=
  if isErrorStatus resp.status then .error (.http resp.status resp.body)
  else if pyStrip resp.body ≠ "" then
    match parse resp.body with
    | .ok j => .ok j
    | .error e => .error (.parse e)
  else .ok jsonOkTrue

/-- `upload_to_lingq` (lines 99-111): one POST of the JSON payload, then the
shared response handling. -/
def upload_to_lingq (transport : UploadRequest → Except NetError (HttpResponse String))
    (parse : String → Except ParseError Json) (payload : Payload)
    (language api_key : String) : Except UploadError Json :=
  match transport (mkLessonPostRequest payload language api_key) with
  | .error e => .error (.network e)
  | .ok resp => handleUploadResponse parse resp

/-- `upload_audio_lesson` (lingq_audio_import.py lines 100-130): one multipart
POST with title, text, share status, optional collection and the audio file,
then the shared response handling. -/
def upload_audio_lesson (transport : UploadRequest → Except NetError (HttpResponse String))
    (parse : String → Except ParseError Json) (mp3Name title text language api_key : String)
    (collection : Option Int) : Except UploadError Json :=
  let data := [("title", title), ("text", text), ("share_status", "private")] ++
    (match collection with
     | some c => [("collection", toString c)]
     | none => [])
  let req : UploadRequest :=
    { url := lingq_import_url language,
      authorization := "Token " ++ api_key, contentType := none,
      jsonBody := none, formFields := data, audioFile := some mp3Name }
  match transport req with
  | .error e => .error (.network e)
  | .ok resp => handleUploadResponse parse resp

/-! ## The headless pipeline (lingq_interactive.py lines 584-677) -/

/-- One observable side effect of a pipeline run, in order: the single GET,
a scripted Playwright fetch, the two artifact writes, the upload POST. -/
inductive Ev where
  | httpGet (req : HttpRequest)
  | scriptedFetch (stepCount : Nat)
  | wroteText (name : String) (contents : String)
  | wrotePayload (name : String) (payload : Payload)
  | uploadPost (req : UploadRequest)
deriving DecidableEq, Repr

/-- Recogniser for GET events. -/
def isHttpGet : Ev → Bool
  | .httpGet _ => true
  | _ => false

/-- Recogniser for upload POST events. -/
def isUploadPost : Ev → Bool
  | .uploadPost _ => true
  | _ => false

/-- Outcome of a headless run; nonzero exits carry their cause, the
too-short case carries the observed word count it reports. -/
inductive RunResult where
  | success
  | noUrl
  | fetchFailed
  | tooShort (observed : Nat) (minRequired : Nat)
  | missingApiKey
  | uploadFailed
deriving DecidableEq, Repr

/-- The external collaborators of a headless run: HTTP transport (returning
parsed documents), Playwright, the credential environment variable, the
upload transport, the JSON parser, and the two formats of the current date. -/
structure Env (σ : Type) where
  transport : HttpRequest → Except NetError (HttpResponse Node)
  pw : PwEnv σ
  envApiKey : Option String
  uploadTransport : UploadRequest → Except NetError (HttpResponse String)
  parseJson : String → Except ParseError Json
  dateDash : String
  dateCompact : String

/-- `url = config.get("url", "").strip()` (line 590). -/
def urlOf (c : Config) : String := pyStrip (c.url.getD "")

/-- `selectors = config.get("selectors") or None` (line 595). -/
def selectorsOf (c : Config) : Option (List Sel) :=
  match c.selectors with
  | some l => if l.isEmpty then none else some l
  | none => none

/-- `api_key = config.get("api_key") or os.getenv("LINGQ_API_KEY")`
(line 596). -/
def resolvedApiKey {σ : Type} (env : Env σ) (c : Config) : Option String :=
  match pyStrOpt c.api_key with
  | some k => some k
  | none => env.envApiKey

/-- `language = config.get("language") or "en"` (line 597). -/
def languageOf (c : Config) : String := (pyStrOpt c.language).getD "en"

/-- `title_ovr = config.get("title") or None` (line 598). -/
def titleOvrOf (c : Config) : Option String := pyStrOpt c.title

/-- `collection = config.get("collection_id") or None` (line 599); a zero id
is falsy. -/
def collectionOf (c : Config) : Option Int :=
  match c.collection_id with
  | some n => if n = 0 then none else some n
  | none => none

/-- `browser_language = config.get("browser_language") or None` (line 601). -/
def browserLanguageOf (c : Config) : Option String := pyStrOpt c.browser_language

/-- `accept_lang = config.get("accept_language") or browser_language or None`
(line 603): the full header takes precedence, falling back to the browser
language. -/
def acceptLangOf (c : Config) : Option String :=
  match pyStrOpt c.accept_language with
  | some a => some a
  | none => browserLanguageOf c

/-- `source_lang = config.get("source_lang") or None` (line 600). -/
def sourceLangOf (c : Config) : Option String := pyStrOpt c.source_lang

/-- Lines 605-607: the fetched url, with the source language appended as a
query parameter when present. -/
def sourceUrlOf (c : Config) : String :=
  match sourceLangOf c with
  | some sl => with_query_param (urlOf c) "lang" sl
  | none => urlOf c

/-- `title_seed = title_ovr or ldi.derive_default_title(source_url)`
(line 609). -/
def titleSeedOf {σ : Type} (env : Env σ) (c : Config) : String :=
  (titleOvrOf c).getD (derive_default_title (sourceUrlOf c) env.dateDash)

/-- The artifact base name, date stamp plus the title slug cut at 80
characters (line 638). -/
def artifactBase {σ : Type} (env : Env σ) (title : String) : String :=
  env.dateCompact ++ "-" ++ (slugify title).take 80

/-- The pipeline from a successfully fetched document on (lines 618-677):
extract, resolve the title, the word-count gate, the two artifact writes,
then the optional upload behind the credential check.  `ev0` is the trace of
the fetch that produced `doc`. -/
def run_after_fetch {σ : Type} (env : Env σ) (config : Config) (upload : Bool)
    (min_words : Nat) (title_seed : String) (doc : Node) (ev0 : List Ev) :
    RunResult × List Ev :=
  let extracted := extract_content doc title_seed (selectorsOf config)
  let title := (titleOvrOf config).getD
    (if extracted.title = "" then title_seed else extracted.title)
  let text := extracted.text
  let wc := wordCount text
  if wc < min_words then (.tooShort wc min_words, ev0)
  else
    let base := artifactBase env title
    let payload := build_lingq_payload title text (collectionOf config)
    let ev1 := ev0 ++ [Ev.wroteText (base ++ ".txt") (text ++ "\n"),
      Ev.wrotePayload (base ++ ".payload.json") payload]
    if upload = false then (.success, ev1)
    else
      match pyStrOpt (resolvedApiKey env config) with
      | none => (.missingApiKey, ev1)
      | some key =>
          let ev2 := ev1 ++ [Ev.uploadPost (mkLessonPostRequest payload (languageOf config) key)]
          match upload_to_lingq env.uploadTransport env.parseJson payload (languageOf config) key with
          | .error _ => (.uploadFailed, ev2)
          | .ok _ => (.success, ev2)

/-- `headless_mode` (lines 584-677) as a pure function over the collaborators,
returning the outcome together with the ordered trace of side effects. -/
def headless_mode {σ : Type} (env : Env σ) (config : Config) (upload : Bool)
    (min_words : Nat) : RunResult × List Ev :=
  if urlOf config = "" then (.noUrl, [])
  else
    let title_seed := titleSeedOf env config
    if config.pre_steps.isEmpty then
      let req := mkGetRequest (sourceUrlOf config) (acceptLangOf config)
      match fetch_html env.transport (sourceUrlOf config) (acceptLangOf config) with
      | .error _ => (.fetchFailed, [Ev.httpGet req])
      | .ok doc => run_after_fetch env config upload min_words title_seed doc [Ev.httpGet req]
    else
      match fetch_html_with_playwright env.pw config.pre_steps (browserLanguageOf config)
          (sourceUrlOf config) with
      | .error _ => (.fetchFailed, [Ev.scriptedFetch config.pre_steps.length])
      | .ok r => run_after_fetch env config upload min_words title_seed r.1
          [Ev.scriptedFetch config.pre_steps.length]

/-- The actions `_run_pre_step` dispatches on (lines 398-411). -/
def knownActions : List String := ["goto", "fill", "select", "click", "wait_for_load", "wait"]

/-- The text a headless run extracts from a fetched document: extraction with
the config selectors and the computed title seed as fallback. -/
def extractedTextOf {σ : Type} (env : Env σ) (config : Config) (doc : Node) : String :=
  (extract_content doc (titleSeedOf env config) (selectorsOf config)).text

/-! ## Concrete fixtures used by the witnesses -/

/-- List-to-NodeList conversion for building fixtures. -/
def nlOf : List Node → NodeList
  | [] => .nil
  | n :: rest => .cons n (nlOf rest)

/-- A 450-character single-word text. -/
def longA : String := String.mk (List.replicate 450 'a')

/-- A 300-word text of 899 characters. -/
def manyWords : String := String.intercalate " " (List.replicate 300 "ab")

/-- Document with two qualifying articles: one long single word, one with many
words. -/
def c3doc : Node :=
  .elem "[document]" (nlOf [.elem "html" (nlOf [.elem "body" (nlOf
    [.elem "article" (nlOf [.text longA]),
     .elem "article" (nlOf [.text manyWords])])])])

/-- Document whose body is empty: extraction succeeds with empty text. -/
def emptyBodyDoc : Node :=
  .elem "[document]" (nlOf [.elem "html" (nlOf [.elem "body" (nlOf [])])])

/-- The whitespace-only title element. -/
def wsTitleEl : Node := .elem "title" (nlOf [.text " "])

/-- Document whose title element holds only a space. -/
def wsTitleDoc : Node :=
  .elem "[document]" (nlOf [.elem "html" (nlOf
    [.elem "head" (nlOf [wsTitleEl]),
     .elem "body" (nlOf [.text "Hello world"])])])

/-- Document with one paragraph and one long article, for the selector-path
witness. -/
def c1doc : Node :=
  .elem "[document]" (nlOf [.elem "html" (nlOf [.elem "body" (nlOf
    [.elem "p" (nlOf [.text "Hi there"]),
     .elem "article" (nlOf [.text longA])])])])

/-- A text of exactly 119 words. -/
def words119 : String := String.intercalate " " (List.replicate 119 "w")

/-- A text of exactly 120 words. -/
def words120 : String := String.intercalate " " (List.replicate 120 "w")

/-- Document whose body carries exactly 119 words. -/
def doc119 : Node :=
  .elem "[document]" (nlOf [.elem "html" (nlOf [.elem "body" (nlOf [.text words119])])])

/-- Document whose body carries exactly 120 words. -/
def doc120 : Node :=
  .elem "[document]" (nlOf [.elem "html" (nlOf [.elem "body" (nlOf [.text words120])])])

/-- A browser over unit state whose actions all succeed. -/
def unitBrowser : Browser Unit :=
  { goto := fun _ _ => .ok (), fill := fun _ _ _ => .ok (),
    selectOption := fun _ _ _ => .ok (), click := fun _ _ => .ok (),
    waitForLoad := fun _ => .ok (), waitTimeout := fun _ _ => .ok () }

/-- A counting browser over Nat state, so that pre-step effects are visible. -/
def countBrowser : Browser Nat :=
  { goto := fun n _ => .ok (n + 1), fill := fun n _ _ => .ok (n + 2),
    selectOption := fun n _ _ => .ok (n + 3), click := fun n _ => .ok (n + 4),
    waitForLoad := fun n => .ok (n + 5), waitTimeout := fun n _ => .ok (n + 6) }

/-- A wait pre-step. -/
def stepWait : PreStep := { action := some "wait", ms := some 100 }

/-- A goto pre-step. -/
def stepGoto : PreStep := { action := some "goto", url := some "https://example.com/next" }

/-- A pre-step with an unknown action. -/
def stepBogus : PreStep := { action := some "bogus" }

/-- A concrete environment whose transport always returns the given document
with status 200 and whose credential environment variable is unset. -/
def mkEnv (doc : Node) : Env Unit :=
  { transport := fun _ => .ok { status := 200, body := doc },
    pw := { browser := unitBrowser, newPage := fun _ => (), content := fun _ => doc },
    envApiKey := none,
    uploadTransport := fun _ => .ok { status := 200, body := "" },
    parseJson := fun _ => .error { msg := "unused" },
    dateDash := "2026-10-12", dateCompact := "20261012" }

/-- A config with a url and an accept language. -/
def cfgAL : Config :=
  { url := some "https://example.com/news/daily-story", accept_language := some "es-ES" }

/-- A config with only a url. -/
def cfgPlain : Config := { url := some "https://example.com/news/daily-story" }

/-! ## Basic lemmas about the helpers -/

theorem dropTrailing_subset (p : Char → Bool) (l : List Char) :
    ∀ c ∈ dropTrailing p l, c ∈ l := by
  induction l with
  | nil => intro c hc; simp [dropTrailing] at hc
  | cons a rest ih =>
      intro c hc
      rcases h : dropTrailing p rest with _ | ⟨d, ds⟩
      · simp only [dropTrailing, h] at hc
        split at hc
        · simp at hc
        · simp at hc; simp [hc]
      · simp only [dropTrailing, h] at hc
        rcases List.mem_cons.mp hc with h1 | h2
        · simp [h1]
        · right; exact ih c (h ▸ h2)

theorem dropTrailing_head (p : Char → Bool) (l : List Char) (c : Char) (cs : List Char)
    (h : dropTrailing p l = c :: cs) : l.head? = some c := by
  cases l with
  | nil => simp [dropTrailing] at h
  | cons a rest =>
      rcases h2 : dropTrailing p rest with _ | ⟨d, ds⟩
      · simp only [dropTrailing, h2] at h
        split at h
        · simp at h
        · simp at h; simp [h.1]
      · simp only [dropTrailing, h2] at h
        simp at h
        simp [h.1]

theorem dropTrailing_getLast (p : Char → Bool) (l : List Char) (c : Char)
    (h : (dropTrailing p l).getLast? = some c) : p c = false := by
  induction l with
  | nil => simp [dropTrailing] at h
  | cons a rest ih =>
      rcases h2 : dropTrailing p rest with _ | ⟨d, ds⟩
      · simp only [dropTrailing, h2] at h
        split at h
        · simp at h
        next hp =>
          simp at h
          rw [← h]
          simpa using hp
      · simp only [dropTrailing, h2] at h
        rw [List.getLast?_cons_cons] at h
        exact ih (h2 ▸ h)

theorem dropWhile_head (p : Char → Bool) (l : List Char) (c : Char) (cs : List Char)
    (h : l.dropWhile p = c :: cs) : p c = false := by
  induction l with
  | nil => simp at h
  | cons a rest ih =>
      rw [List.dropWhile_cons] at h
      split at h
      · exact ih h
      next hp =>
        simp at h
        rw [← h.1]
        simpa using hp

theorem hyphenCollapse_subset (l : List Char) :
    ∀ c ∈ hyphenCollapse l, c ∈ l := by
  induction l with
  | nil => intro c hc; simp [hyphenCollapse] at hc
  | cons a rest ih =>
      intro c hc
      rcases h : hyphenCollapse rest with _ | ⟨d, ds⟩
      · simp only [hyphenCollapse, h] at hc
        simp at hc; simp [hc]
      · simp only [hyphenCollapse, h] at hc
        split at hc
        · right; exact ih c (h ▸ hc)
        · rcases List.mem_cons.mp hc with h1 | h2
          · simp [h1]
          · right; exact ih c (h ▸ h2)

theorem map_lower_slug (v : List Char) :
    ∀ c ∈ (v.map (fun c => if isSlugAlnum c then c else '-')), isSlugAlnum c = true ∨ c = '-' := by
  intro c hc
  rcases List.mem_map.mp hc with ⟨a, _, ha⟩
  by_cases h : isSlugAlnum a
  · left; rw [← ha]; simp [h]
  · right; rw [← ha]; simp [h]

/-- C10: for every input string, slugify returns a non-empty string whose
characters are all lowercase ASCII letters, digits or hyphens, with no leading
or trailing hyphen, and returns "lesson" when no alphanumeric character
survives the substitution. -/
theorem slugify_filesystem_safe (s : String) :
    slugify s ≠ "" ∧
    (∀ c ∈ (slugify s).data, isSlugAlnum c = true ∨ c = '-') ∧
    (slugify s).data.head? ≠ some '-' ∧
    (slugify s).data.getLast? ≠ some '-' ∧
    ((∀ c ∈ s.data, isSlugAlnum c.toLower = false) → slugify s = "lesson") := by
  have strippedSub : ∀ c ∈ dropTrailing (fun c => c = '-')
      ((subNonAlnum (pyStripL (s.data.map Char.toLower))).dropWhile (fun c => c = '-')),
      isSlugAlnum c = true ∨ c = '-' := by
    intro c hc
    have h1 := dropTrailing_subset _ _ c hc
    have h2 := (List.dropWhile_sublist _).subset h1
    exact map_lower_slug _ c (hyphenCollapse_subset _ c h2)
  refine ⟨?_, ?_, ?_, ?_, ?_⟩
  · simp only [slugify]
    split
    · decide
    next h =>
      intro hcon
      have hdata : (String.mk (dropTrailing (fun c => c = '-')
          ((subNonAlnum (pyStripL (s.data.map Char.toLower))).dropWhile (fun c => c = '-')))).data
          = ("" : String).data := by rw [hcon]
      simp at hdata
      simp [hdata] at h
  · simp only [slugify]
    split
    · exact fun c hc =>
        (by decide : ∀ x ∈ ("lesson" : String).data, isSlugAlnum x = true ∨ x = '-') c hc
    · intro c hc
      exact strippedSub c hc
  · simp only [slugify]
    split
    · decide
    · intro hcon
      rcases h3 : dropTrailing (fun c => c = '-')
          ((subNonAlnum (pyStripL (s.data.map Char.toLower))).dropWhile (fun c => c = '-')) with _ | ⟨d, ds⟩
      · rw [h3] at hcon; simp at hcon
      · rw [h3] at hcon
        simp at hcon
        have hhead := dropTrailing_head _ _ _ _ h3
        rcases h4 : (subNonAlnum (pyStripL (s.data.map Char.toLower))).dropWhile
            (fun c => c = '-') with _ | ⟨e, es⟩
        · rw [h4] at hhead; simp at hhead
        · rw [h4] at hhead
          simp at hhead
          have h5 := dropWhile_head _ _ _ _ h4
          rw [hhead] at h5
          rw [hcon] at h5
          simp at h5
  · simp only [slugify]
    split
    · decide
    · intro hcon
      have h6 := dropTrailing_getLast (fun c => c = '-') _ _ hcon
      simp at h6
  · intro hall
    have hmapped : ∀ c ∈ ((pyStripL (s.data.map Char.toLower)).map
        (fun c => if isSlugAlnum c then c else '-')), c = '-' := by
      intro c hc
      rcases List.mem_map.mp hc with ⟨a, ha, hae⟩
      have ha2 : a ∈ s.data.map Char.toLower := by
        have h1 := dropTrailing_subset _ _ a ha
        exact (List.dropWhile_sublist _).subset h1
      rcases List.mem_map.mp ha2 with ⟨b, hb, hbe⟩
      have hfalse : isSlugAlnum a = false := by rw [← hbe]; exact hall b hb
      rw [← hae]; simp [hfalse]
    have hsub : ∀ c ∈ subNonAlnum (pyStripL (s.data.map Char.toLower)), c = '-' := by
      intro c hc
      exact hmapped c (hyphenCollapse_subset _ c hc)
    have hnil : (subNonAlnum (pyStripL (s.data.map Char.toLower))).dropWhile
        (fun c => c = '-') = [] := by
      rw [List.dropWhile_eq_nil_iff]
      intro x hx
      simp [hsub x hx]
    simp [slugify, hnil, dropTrailing]

/-- Witness for C10 at concrete inputs. -/
theorem slugify_filesystem_safe_witness :
    slugify "@@!!" = "lesson" ∧ slugify "Hello, World!" ≠ "" :=
  ⟨(slugify_filesystem_safe "@@!!").2.2.2.2 (by decide),
   (slugify_filesystem_safe "Hello, World!").1⟩

/-! ## Lemmas about firstMaxBy -/

theorem firstMaxBy_cons_ne_none {α : Type} (f : α → Nat) (x : α) (rest : List α) :
    firstMaxBy f (x :: rest) ≠ none := by
  rcases h : firstMaxBy f rest with _ | b <;> simp [firstMaxBy, h]
  split <;> simp

theorem firstMaxBy_mem {α : Type} (f : α → Nat) (l : List α) :
    ∀ a, firstMaxBy f l = some a → a ∈ l := by
  induction l with
  | nil => intro a h; simp [firstMaxBy] at h
  | cons x rest ih =>
      intro a h
      rcases h2 : firstMaxBy f rest with _ | b
      · simp only [firstMaxBy, h2] at h
        simp at h
        simp [h]
      · simp only [firstMaxBy, h2] at h
        split at h
        · simp at h
          right
          exact ih a (h ▸ h2)
        · simp at h
          simp [h]

theorem firstMaxBy_maximal {α : Type} (f : α → Nat) (l : List α) :
    ∀ a, firstMaxBy f l = some a → ∀ b ∈ l, f b ≤ f a := by
  induction l with
  | nil => intro a h; simp [firstMaxBy] at h
  | cons x rest ih =>
      intro a h b hb
      rcases h2 : firstMaxBy f rest with _ | m
      · have hrest : rest = [] := by
          cases rest with
          | nil => rfl
          | cons y ys => exact absurd h2 (firstMaxBy_cons_ne_none f y ys)
        subst hrest
        simp only [firstMaxBy, h2] at h
        simp at h
        subst h
        simp at hb
        subst hb
        exact le_refl _
      · simp only [firstMaxBy, h2] at h
        by_cases hlt : f x < f m
        · rw [if_pos hlt] at h
          simp at h
          rw [← h]
          rcases List.mem_cons.mp hb with rfl | hb2
          · exact le_of_lt hlt
          · exact ih m h2 b hb2
        · rw [if_neg hlt] at h
          simp at h
          rw [← h]
          rcases List.mem_cons.mp hb with rfl | hb2
          · exact le_refl _
          · exact le_trans (ih m h2 b hb2) (le_of_not_lt hlt)

/-! ## Lemmas about extractCore -/

theorem extractCore_title (score : String → Nat) (doc : Node) (fb : String)
    (sels : Option (List Sel)) :
    (extractCore score doc fb sels).title = resolveTitle (stripN doc) fb := by
  have hh : ∀ ttl, (heuristicExtract score (stripN doc) ttl).title = ttl := by
    intro ttl
    rcases hfm : firstMaxBy score (heuristicCandidates (stripN doc)) with _ | best <;>
      simp [heuristicExtract, hfm]
  cases sels with
  | none => simp [extractCore, hh]
  | some l =>
      by_cases hl : l.isEmpty <;> simp [extractCore, hl, hh]

theorem nodeString_some_truthy (n : Node) (s : String) (h : nodeStringN n = some s)
    (hs : s ≠ "") : pyTruthy n = true := by
  cases n with
  | text s2 =>
      simp [nodeStringN] at h
      simp [pyTruthy, h, hs]
  | elem t cs =>
      cases cs with
      | nil => simp [nodeStringN] at h
      | cons c rest => simp [pyTruthy]

/-! ## C1 -/

/-- C1: for every document and non-empty selector list, extraction is
independent of the scoring function (heuristic scoring is never invoked), the
text is the concatenation of the cleaned text of every element matched by
each selector, in selector-list order then document order within a selector,
joined by paragraph breaks, and a selector matching nothing is skipped
without error: dropping it from the list leaves the result unchanged. -/
theorem selector_path_concatenates (f g : String → Nat) (doc : Node) (fb : String)
    (sels : List Sel) (hne : sels ≠ []) :
    extractCore f doc fb (some sels) = extractCore g doc fb (some sels) ∧
    (extract_content doc fb (some sels)).text =
      String.intercalate "\n\n"
        (List.flatMap sels
          (fun sel => (selectDoc sel (stripN doc)).map (fun n => clean_text (getTextN n)))) ∧
    (∀ pre post sel, sels = pre ++ sel :: post → selectDoc sel (stripN doc) = [] →
      pre ++ post ≠ [] →
      extract_content doc fb (some sels) = extract_content doc fb (some (pre ++ post))) := by
  have h1 : sels.isEmpty = false := by
    cases sels with
    | nil => exact absurd rfl hne
    | cons a l => rfl
  refine ⟨?_, ?_, ?_⟩
  · simp [extractCore, h1]
  · simp [extract_content, extractCore, h1, selectorText]
  · intro pre post sel hs hsel hne2
    have h2 : (pre ++ post).isEmpty = false := by
      cases hpp : pre ++ post with
      | nil => exact absurd hpp hne2
      | cons a l => rfl
    subst hs
    simp only [extract_content, extractCore, h1, h2, Bool.false_eq_true, if_false,
      selectorText]
    congr 1
    rw [List.flatMap_append, List.flatMap_append, List.flatMap_cons, hsel]
    simp

/-- Witness for C1: a document with a paragraph and an article, a paragraph
selector together with a selector matching nothing, and two different scoring
functions. -/
theorem selector_path_concatenates_witness :
    extractCore (fun _ => 0) c1doc "fb" (some [tagSel "p", tagSel "missing"]) =
      extractCore (fun _ => 7) c1doc "fb" (some [tagSel "p", tagSel "missing"]) ∧
    (extract_content c1doc "fb" (some [tagSel "p", tagSel "missing"])).text =
      String.intercalate "\n\n"
        (List.flatMap [tagSel "p", tagSel "missing"]
          (fun sel => (selectDoc sel (stripN c1doc)).map (fun n => clean_text (getTextN n)))) ∧
    (∀ pre post sel, [tagSel "p", tagSel "missing"] = pre ++ sel :: post →
      selectDoc sel (stripN c1doc) = [] → pre ++ post ≠ [] →
      extract_content c1doc "fb" (some [tagSel "p", tagSel "missing"]) =
        extract_content c1doc "fb" (some (pre ++ post))) :=
  selector_path_concatenates (fun _ => 0) (fun _ => 7) c1doc "fb"
    [tagSel "p", tagSel "missing"] (List.cons_ne_nil _ _)

/-! ## C3 -/

/-- C3: on the heuristic path, when qualifying candidates exist, the returned
text is one of the candidate texts (each longer than 400 characters after
cleaning, so a candidate of at most 400 characters is never selected), its
length exceeds 400, and its score word count plus four times the paragraph
count is maximal among all candidates. -/
theorem heuristic_picks_highest_scoring (doc : Node) (fb : String)
    (h : heuristicCandidates (stripN doc) ≠ []) :
    (extract_content doc fb none).text ∈ heuristicCandidates (stripN doc) ∧
    400 < (extract_content doc fb none).text.length ∧
    (∀ t ∈ heuristicCandidates (stripN doc),
      score_node_text t ≤ score_node_text (extract_content doc fb none).text) := by
  obtain ⟨best, hbest⟩ : ∃ best,
      firstMaxBy score_node_text (heuristicCandidates (stripN doc)) = some best := by
    cases hc : heuristicCandidates (stripN doc) with
    | nil => exact absurd hc h
    | cons x rest =>
        rcases h2 : firstMaxBy score_node_text (x :: rest) with _ | b
        · exact absurd h2 (firstMaxBy_cons_ne_none _ x rest)
        · exact ⟨b, rfl⟩
  have hext : extract_content doc fb none =
      { title := resolveTitle (stripN doc) fb, text := best } := by
    simp [extract_content, extractCore, heuristicExtract, hbest]
  rw [hext]
  have hmem := firstMaxBy_mem score_node_text _ best hbest
  refine ⟨hmem, ?_, fun t ht => firstMaxBy_maximal score_node_text _ best hbest t ht⟩
  have hmem2 := hmem
  unfold heuristicCandidates at hmem2
  have hfil := (List.mem_filter.mp hmem2).2
  simpa using hfil

set_option maxRecDepth 100000 in
/-- Witness for C3: the 300-word article outscores the 450-character
single-word article. -/
theorem heuristic_picks_highest_scoring_witness :
    (extract_content c3doc "fb" none).text ∈ heuristicCandidates (stripN c3doc) ∧
    400 < (extract_content c3doc "fb" none).text.length ∧
    (∀ t ∈ heuristicCandidates (stripN c3doc),
      score_node_text t ≤ score_node_text (extract_content c3doc "fb" none).text) :=
  heuristic_picks_highest_scoring c3doc "fb" (by decide)

/-! ## C4 -/

/-- C4 counterexample: on a document with an empty body, extraction succeeds
and returns an ExtractionResult whose text is empty, so an empty text is a
possible valid result, refuting the claim that a returned ExtractionResult
never has empty text. -/
theorem extraction_returns_empty_text :
    (extract_content emptyBodyDoc "t" none).text = "" ∧
    extract_content emptyBodyDoc "t" none = { title := "t", text := "" } := by
  decide

/-- C4 amended: extraction is total and can return empty text; the pipeline
word-count gate rejects such a result for every positive threshold before any
artifact is written or upload attempted, failing with the observed count 0. -/
theorem empty_text_rejected_by_gate {σ : Type} (env : Env σ) (config : Config)
    (upload : Bool) (min_words : Nat) (title_seed : String) (doc : Node) (ev0 : List Ev)
    (hmin : 0 < min_words)
    (hempty : (extract_content doc title_seed (selectorsOf config)).text = "") :
    run_after_fetch env config upload min_words title_seed doc ev0 =
      (RunResult.tooShort 0 min_words, ev0) := by
  have hwc : wordCount "" = 0 := rfl
  simp only [run_after_fetch]
  rw [hempty, hwc, if_pos hmin]

/-- Witness for the amended C4. -/
theorem empty_text_rejected_by_gate_witness :
    run_after_fetch (mkEnv emptyBodyDoc) {} true 120 "t" emptyBodyDoc [] =
      (RunResult.tooShort 0 120, []) :=
  empty_text_rejected_by_gate (mkEnv emptyBodyDoc) {} true 120 "t" emptyBodyDoc []
    (by decide) (by decide)

/-! ## C5 -/

/-- C5 counterexample: on a document whose title element holds a single
space, the resulting title is the empty string: not the title element text
(a space) and not the fallback title, refuting the claimed two-way
resolution. -/
theorem whitespace_title_neither_text_nor_fallback :
    (extract_content wsTitleDoc "fb" none).title = "" ∧
    (extract_content wsTitleDoc "fb" none).title ≠ " " ∧
    (extract_content wsTitleDoc "fb" none).title ≠ "fb" ∧
    getTextN wsTitleEl = " " := by
  decide

/-- C5 corrected: for every document, scoring function and selector argument,
the title is the fallback when no title element survives stripping, or when
the first title element has no single string or an empty one; when that
string is non-empty the title is its stripped value, which is empty rather
than the fallback for a whitespace-only title. -/
theorem title_resolution (score : String → Nat) (doc : Node) (fb : String)
    (sels : Option (List Sel)) :
    (findTagDoc "title" (stripN doc) = none → (extractCore score doc fb sels).title = fb) ∧
    (∀ tEl, findTagDoc "title" (stripN doc) = some tEl →
      (nodeStringN tEl = none → (extractCore score doc fb sels).title = fb) ∧
      (nodeStringN tEl = some "" → (extractCore score doc fb sels).title = fb) ∧
      (∀ s, nodeStringN tEl = some s → s ≠ "" →
        (extractCore score doc fb sels).title = pyStrip s)) := by
  simp only [extractCore_title]
  constructor
  · intro hnone
    simp [resolveTitle, hnone]
  · intro tEl hT
    refine ⟨?_, ?_, ?_⟩
    · intro hns
      cases hpt : pyTruthy tEl <;> simp [resolveTitle, hT, hns, hpt]
    · intro hns
      cases hpt : pyTruthy tEl <;> simp [resolveTitle, hT, hns, hpt]
    · intro s hns hs
      have hpt := nodeString_some_truthy tEl s hns hs
      simp [resolveTitle, hT, hns, hpt, hs]

/-- Witness for the corrected C5: the whitespace-only title resolves to the
stripped space, the empty string. -/
theorem title_resolution_witness :
    (extractCore score_node_text wsTitleDoc "fb" none).title = pyStrip " " :=
  ((title_resolution score_node_text wsTitleDoc "fb" none).2 wsTitleEl rfl).2.2 " " rfl
    (by decide)

/-! ## C9 -/

/-- C9: for every 2xx upload response whose body is blank after stripping,
both uploaders return the ok dict whatever the JSON parser does (the parser
result never enters the outcome), so an empty successful response is success
and never a parse error. -/
theorem blank_success_body_is_ok (parse : String → Except ParseError Json)
    (resp : HttpResponse String) (payload : Payload)
    (mp3Name title text language api_key : String) (collection : Option Int)
    (h200 : 200 ≤ resp.status) (h300 : resp.status < 300)
    (hblank : pyStrip resp.body = "") :
    upload_to_lingq (fun _ => .ok resp) parse payload language api_key = .ok jsonOkTrue ∧
    upload_audio_lesson (fun _ => .ok resp) parse mp3Name title text language api_key
      collection = .ok jsonOkTrue := by
  have hstat : isErrorStatus resp.status = false := by
    simp [isErrorStatus]
    omega
  constructor <;>
    simp [upload_to_lingq, upload_audio_lesson, handleUploadResponse, hstat, hblank]

/-- Witness for C9: a 204 response with a whitespace body and a parser that
always fails still yields the ok dict from both uploaders. -/
theorem blank_success_body_is_ok_witness :
    upload_to_lingq (fun _ => .ok { status := 204, body := "  " })
        (fun _ => .error { msg := "boom" })
        (build_lingq_payload "t" "x" none) "en" "k" = .ok jsonOkTrue ∧
    upload_audio_lesson (fun _ => .ok { status := 204, body := "  " })
        (fun _ => .error { msg := "boom" })
        "a.mp3" "t" "x" "en" "k" (some 5) = .ok jsonOkTrue :=
  blank_success_body_is_ok (fun _ => .error { msg := "boom" })
    { status := 204, body := "  " } (build_lingq_payload "t" "x" none)
    "a.mp3" "t" "x" "en" "k" (some 5) (by decide) (by decide) (by decide)

/-! ## C7 -/

theorem run_pre_step_unknown {σ : Type} (B : Browser σ) (page : σ) (step : PreStep)
    (h : pyStrip (step.action.getD "") ∉ knownActions) :
    run_pre_step B page step =
      .ok (page, [unknownActionWarning (pyStrip (step.action.getD ""))]) := by
  simp [knownActions] at h
  obtain ⟨h1, h2, h3, h4, h5, h6⟩ := h
  simp [run_pre_step, h1, h2, h3, h4, h5, h6]

/-- C7: a pre-step whose normalised action is not one of goto, fill, select,
click, wait_for_load or wait is non-fatal: the whole sequence behaves exactly
as without it except for one inserted warning, so every subsequent step still
executes with the same page states and the run continues. -/
theorem unknown_pre_step_nonfatal {σ : Type} (B : Browser σ) (page : σ)
    (pre post : List PreStep) (step : PreStep)
    (h : pyStrip (step.action.getD "") ∉ knownActions) :
    run_pre_steps B page (pre ++ step :: post) =
      (match run_pre_steps B page pre with
       | .error e => .error e
       | .ok (p, ws) =>
           match run_pre_steps B p post with
           | .error e => .error e
           | .ok (p2, ws2) =>
               .ok (p2, ws ++ unknownActionWarning (pyStrip (step.action.getD "")) :: ws2)) := by
  induction pre generalizing page with
  | nil =>
      simp only [List.nil_append, run_pre_steps]
      rw [run_pre_step_unknown B page step h]
      cases hrest : run_pre_steps B page post with
      | error e => simp [hrest]
      | ok pr =>
          obtain ⟨p2, ws2⟩ := pr
          simp [hrest]
  | cons s rest ih =>
      simp only [List.cons_append, run_pre_steps]
      cases hs : run_pre_step B page s with
      | error e => rfl
      | ok pr =>
          obtain ⟨p, ws⟩ := pr
          have ihp := ih p
          simp only [List.append_eq] at ihp ⊢
          simp only [ihp]
          cases h1 : run_pre_steps B p rest with
          | error e => simp [h1]
          | ok pr2 =>
              obtain ⟨p2, ws2⟩ := pr2
              cases h2 : run_pre_steps B p2 post with
              | error e => simp [h1, h2]
              | ok pr3 =>
                  obtain ⟨p3, ws3⟩ := pr3
                  simp [h1, h2]

/-- Witness for C7: wait, then a bogus step, then goto on the counting
browser. -/
theorem unknown_pre_step_nonfatal_witness :
    run_pre_steps countBrowser 0 ([stepWait] ++ stepBogus :: [stepGoto]) =
      (match run_pre_steps countBrowser 0 [stepWait] with
       | .error e => .error e
       | .ok (p, ws) =>
           match run_pre_steps countBrowser p [stepGoto] with
           | .error e => .error e
           | .ok (p2, ws2) =>
               .ok (p2, ws ++ unknownActionWarning (pyStrip (stepBogus.action.getD "")) :: ws2)) :=
  unknown_pre_step_nonfatal countBrowser 0 [stepWait] [stepGoto] stepBogus (by decide)

/-! ## Pipeline lemmas -/

theorem run_after_fetch_filter_get {σ : Type} (env : Env σ) (config : Config)
    (upload : Bool) (min_words : Nat) (title_seed : String) (doc : Node) (ev0 : List Ev) :
    ((run_after_fetch env config upload min_words title_seed doc ev0).2).filter isHttpGet =
      ev0.filter isHttpGet := by
  simp only [run_after_fetch]
  split
  · rfl
  · split
    · simp [List.filter_append, isHttpGet]
    · split
      · simp [List.filter_append, isHttpGet]
      · split <;> simp [List.filter_append, isHttpGet]

/-! ## C2 -/

/-- C2: for every config with empty pre-steps and a non-empty url, the
headless pipeline fetch builds one GET request with the fixed identifying
user agent, carrying the Accept-Language header exactly when the config
resolves an accept language (accept_language falling back to
browser_language); exactly one GET appears in any trace; a transport failure
or an error status (within the 200-599 range of final statuses) ends the run
as a fetch failure with no retry, while a 2xx or 3xx status fetches the
body. -/
theorem plain_get_single_request {σ : Type} (env : Env σ) (config : Config)
    (upload : Bool) (min_words : Nat)
    (hpre : config.pre_steps = []) (hurl : urlOf config ≠ "") :
    ((mkGetRequest (sourceUrlOf config) (acceptLangOf config)).method = "GET" ∧
     ("User-Agent", USER_AGENT) ∈
        (mkGetRequest (sourceUrlOf config) (acceptLangOf config)).headers ∧
     (∀ v, ("Accept-Language", v) ∈
        (mkGetRequest (sourceUrlOf config) (acceptLangOf config)).headers ↔
        acceptLangOf config = some v)) ∧
    ((headless_mode env config upload min_words).2.filter isHttpGet =
      [Ev.httpGet (mkGetRequest (sourceUrlOf config) (acceptLangOf config))]) ∧
    (∀ e, env.transport (mkGetRequest (sourceUrlOf config) (acceptLangOf config)) =
        .error e →
      headless_mode env config upload min_words =
        (RunResult.fetchFailed,
         [Ev.httpGet (mkGetRequest (sourceUrlOf config) (acceptLangOf config))])) ∧
    (∀ resp, env.transport (mkGetRequest (sourceUrlOf config) (acceptLangOf config)) =
        .ok resp →
      200 ≤ resp.status → resp.status < 600 →
      ((400 ≤ resp.status →
          headless_mode env config upload min_words =
            (RunResult.fetchFailed,
             [Ev.httpGet (mkGetRequest (sourceUrlOf config) (acceptLangOf config))])) ∧
       (resp.status < 400 →
          fetch_html env.transport (sourceUrlOf config) (acceptLangOf config) =
            .ok resp.body))) := by
  refine ⟨⟨rfl, ?_, ?_⟩, ?_, ?_, ?_⟩
  · simp [mkGetRequest]
  · intro v
    cases hal : acceptLangOf config with
    | none => simp [mkGetRequest]
    | some a => simp [mkGetRequest, eq_comm]
  · rcases hf : fetch_html env.transport (sourceUrlOf config) (acceptLangOf config) with e | d
    · simp only [headless_mode]
      rw [if_neg hurl]
      simp [hpre, hf, isHttpGet]
    · simp only [headless_mode]
      rw [if_neg hurl]
      simp only [hpre, List.isEmpty_nil, if_true, hf]
      rw [run_after_fetch_filter_get]
      simp [isHttpGet]
  · intro e he
    have hf : fetch_html env.transport (sourceUrlOf config) (acceptLangOf config) =
        .error (.network e) := by
      simp [fetch_html, he]
    simp only [headless_mode]
    rw [if_neg hurl]
    simp [hpre, hf]
  · intro resp hok h200 h600
    constructor
    · intro h400
      have hes : isErrorStatus resp.status = true := by
        simp [isErrorStatus]
        omega
      have hf : fetch_html env.transport (sourceUrlOf config) (acceptLangOf config) =
          .error (.httpStatus resp.status) := by
        simp [fetch_html, hok, hes]
      simp only [headless_mode]
      rw [if_neg hurl]
      simp [hpre, hf]
    · intro hlt
      have hes : isErrorStatus resp.status = false := by
        simp [isErrorStatus]
        omega
      simp [fetch_html, hok, hes]

/-- Witness for C2: the single-GET trace shape and the Accept-Language header
at a concrete config with accept_language es-ES. -/
theorem plain_get_single_request_witness :
    ((headless_mode (mkEnv doc120) cfgAL false 0).2.filter isHttpGet =
      [Ev.httpGet (mkGetRequest (sourceUrlOf cfgAL) (acceptLangOf cfgAL))]) ∧
    (("Accept-Language", "es-ES") ∈
      (mkGetRequest (sourceUrlOf cfgAL) (acceptLangOf cfgAL)).headers ↔
      acceptLangOf cfgAL = some "es-ES") :=
  ⟨(plain_get_single_request (mkEnv doc120) cfgAL false 0 rfl (by decide)).2.1,
   (plain_get_single_request (mkEnv doc120) cfgAL false 0 rfl (by decide)).1.2.2 "es-ES"⟩

/-! ## C6 -/

/-- C6: for every run over a successful plain GET, a word count strictly
below the threshold ends the run as tooShort carrying the observed count,
with no artifact written and no upload attempted; a word count of exactly the
threshold passes the gate: the result is never tooShort and the text artifact
write happens. -/
theorem word_count_gate {σ : Type} (env : Env σ) (config : Config) (upload : Bool)
    (min_words : Nat) (resp : HttpResponse Node)
    (hpre : config.pre_steps = []) (hurl : urlOf config ≠ "")
    (hok : env.transport (mkGetRequest (sourceUrlOf config) (acceptLangOf config)) = .ok resp)
    (hstat : resp.status < 400) :
    (wordCount (extractedTextOf env config resp.body) < min_words →
      headless_mode env config upload min_words =
        (RunResult.tooShort (wordCount (extractedTextOf env config resp.body)) min_words,
         [Ev.httpGet (mkGetRequest (sourceUrlOf config) (acceptLangOf config))])) ∧
    (wordCount (extractedTextOf env config resp.body) = min_words →
      (∀ n m, (headless_mode env config upload min_words).1 ≠ RunResult.tooShort n m) ∧
      (∃ name tail, (headless_mode env config upload min_words).2 =
        Ev.httpGet (mkGetRequest (sourceUrlOf config) (acceptLangOf config)) ::
          Ev.wroteText name (extractedTextOf env config resp.body ++ "\n") :: tail)) := by
  have hes : isErrorStatus resp.status = false := by
    simp [isErrorStatus]
    omega
  have hfe : fetch_html env.transport (sourceUrlOf config) (acceptLangOf config) =
      .ok resp.body := by
    simp [fetch_html, hok, hes]
  have hunfold : headless_mode env config upload min_words =
      run_after_fetch env config upload min_words (titleSeedOf env config) resp.body
        [Ev.httpGet (mkGetRequest (sourceUrlOf config) (acceptLangOf config))] := by
    simp only [headless_mode]
    rw [if_neg hurl]
    simp [hpre, hfe]
  constructor
  · intro hlt
    rw [hunfold]
    unfold extractedTextOf at hlt
    simp only [run_after_fetch]
    rw [if_pos hlt]
    rfl
  · intro heq
    have hge : ¬ (wordCount (extract_content resp.body (titleSeedOf env config)
        (selectorsOf config)).text < min_words) := by
      unfold extractedTextOf at heq
      omega
    rw [hunfold]
    constructor
    · intro n m
      simp only [run_after_fetch]
      rw [if_neg hge]
      split
      · simp
      · split
        · simp
        · split <;> simp
    · simp only [run_after_fetch]
      rw [if_neg hge]
      unfold extractedTextOf
      split
      · exact ⟨_, _, by rw [List.singleton_append]⟩
      · split
        · exact ⟨_, _, by rw [List.singleton_append]⟩
        · split <;> exact ⟨_, _, by
            simp only [List.append_assoc, List.singleton_append, List.cons_append,
              List.nil_append]
            rfl⟩

set_option maxRecDepth 100000 in
/-- Witness for C6: 119 words against a 120-word minimum fail with the
observed count; 120 words pass. -/
theorem word_count_gate_witness :
    headless_mode (mkEnv doc119) cfgPlain false 120 =
      (RunResult.tooShort 119 120,
       [Ev.httpGet (mkGetRequest (sourceUrlOf cfgPlain) (acceptLangOf cfgPlain))]) ∧
    (∀ n m, (headless_mode (mkEnv doc120) cfgPlain false 120).1 ≠ RunResult.tooShort n m) := by
  constructor
  · exact (word_count_gate (mkEnv doc119) cfgPlain false 120 { status := 200, body := doc119 }
      rfl (by decide) rfl (by decide)).1 (by decide)
  · exact ((word_count_gate (mkEnv doc120) cfgPlain false 120 { status := 200, body := doc120 }
      rfl (by decide) rfl (by decide)).2 (by decide)).1

/-! ## C8 -/

/-- C8: when upload is requested over a successful fetch and passing word
count but no API key is resolvable (config value empty or absent and no
environment fallback), the run ends as missingApiKey, both artifact writes
are in the trace and stay there (the model has no removal effect), and no
upload POST is ever issued. -/
theorem missing_credential_aborts_before_upload {σ : Type} (env : Env σ) (config : Config)
    (min_words : Nat) (resp : HttpResponse Node)
    (hpre : config.pre_steps = []) (hurl : urlOf config ≠ "")
    (hok : env.transport (mkGetRequest (sourceUrlOf config) (acceptLangOf config)) = .ok resp)
    (hstat : resp.status < 400)
    (hwc : min_words ≤ wordCount (extractedTextOf env config resp.body))
    (hkey : pyStrOpt (resolvedApiKey env config) = none) :
    (headless_mode env config true min_words).1 = RunResult.missingApiKey ∧
    (∃ n c, Ev.wroteText n c ∈ (headless_mode env config true min_words).2) ∧
    (∃ n p, Ev.wrotePayload n p ∈ (headless_mode env config true min_words).2) ∧
    ((headless_mode env config true min_words).2).filter isUploadPost = [] := by
  have hes : isErrorStatus resp.status = false := by
    simp [isErrorStatus]
    omega
  have hfe : fetch_html env.transport (sourceUrlOf config) (acceptLangOf config) =
      .ok resp.body := by
    simp [fetch_html, hok, hes]
  have hunfold : headless_mode env config true min_words =
      run_after_fetch env config true min_words (titleSeedOf env config) resp.body
        [Ev.httpGet (mkGetRequest (sourceUrlOf config) (acceptLangOf config))] := by
    simp only [headless_mode]
    rw [if_neg hurl]
    simp [hpre, hfe]
  have hge : ¬ (wordCount (extract_content resp.body (titleSeedOf env config)
      (selectorsOf config)).text < min_words) := by
    unfold extractedTextOf at hwc
    omega
  rw [hunfold]
  simp only [run_after_fetch]
  rw [if_neg hge]
  rw [if_neg (show ¬ (true = false) by simp)]
  simp only [hkey]
  refine ⟨trivial, ?_, ?_, ?_⟩
  · exact ⟨_, _, List.mem_append_right _ (List.mem_cons_self _ _)⟩
  · exact ⟨_, _, List.mem_append_right _ (List.mem_cons_of_mem _ (List.mem_cons_self _ _))⟩
  · simp [List.filter_append, isUploadPost]


set_option maxRecDepth 100000 in
/-- Witness for C8: upload requested with no config key and no environment
key: the run fails with missingApiKey, has both writes and no upload POST. -/
theorem missing_credential_aborts_before_upload_witness :
    (headless_mode (mkEnv doc120) cfgPlain true 1).1 = RunResult.missingApiKey ∧
    ((headless_mode (mkEnv doc120) cfgPlain true 1).2).filter isUploadPost = [] :=
  ⟨(missing_credential_aborts_before_upload (mkEnv doc120) cfgPlain 1
      { status := 200, body := doc120 } rfl (by decide) rfl (by decide) (by decide) rfl).1,
   (missing_credential_aborts_before_upload (mkEnv doc120) cfgPlain 1
      { status := 200, body := doc120 } rfl (by decide) rfl (by decide) (by decide) rfl).2.2.2⟩
